import Mathlib

/-!
Shallow embedding of the USB HID keyboard controller (`HIDKeyboard` class).

The engine owns a connection to a character device, a held-modifier bitmask
and a held-key list, and builds 8-byte HID reports from them.  Device writes
are logged as lists of 8 bytes; fallibility of the outside world (device node
availability, open/write/close success) is captured by a `World` record.
JavaScript exceptions are modelled by an `Option HIDError` component of each
operation's result: mutations performed before a throw are kept, as in the
source, where `this.heldKeys.push(...)` precedes an `await` that may throw.
-/

/-- Errors thrown by the engine (the messages of the `throw new Error(...)`
sites, plus write/open failures of the underlying device). -/
inductive HIDError where
  | NotConnected
  | InvalidModifierMask
  | TooManyKeys
  | UnknownKey (name : String)
  | MaxKeysExceeded
  | UnknownModifier (name : String)
  | InvalidCombination
  | DeviceUnavailable
  | OpenFailed
  | WriteFailed
  | UnknownActionType (tag : String)
deriving DecidableEq, Repr

/-- Configuration options kept by the engine (`DEFAULT_CONFIG` merged with the
constructor's options; `devicePath` and `enableLogging` do not influence the
state transitions modelled here). -/
structure Config where
  defaultDelay : Nat
  keyHoldTime : Nat
  autoRelease : Bool
deriving DecidableEq, Repr

/-- `DEFAULT_CONFIG` of the source. -/
def defaultConfig : Config := ⟨50, 100, true⟩

/-- Behaviour of the outside world during a run: whether the device node is
present and accessible, and whether open/write/close calls succeed. -/
structure World where
  deviceAvailable : Bool
  openOk : Bool
  writeOk : Bool
  closeOk : Bool
deriving DecidableEq, Repr

/-- A world where every device interaction succeeds. -/
def allOk : World := ⟨true, true, true, true⟩

/-- Mutable state of a `HIDKeyboard` instance: `deviceHandle` records whether
`this.deviceHandle` is non-null. -/
structure EngineState where
  config : Config
  deviceHandle : Bool
  isConnected : Bool
  currentReport : List Nat
  heldModifiers : Nat
  heldKeys : List Nat
deriving DecidableEq, Repr

/-- Result of one engine operation: the state after the call, the 8-byte
reports written to the device during the call (in order), and the error
thrown, if any. -/
structure OpResult where
  state : EngineState
  writes : List (List Nat)
  err? : Option HIDError
deriving DecidableEq, Repr

/-- ASCII whitespace recognised by string trimming. -/
def isSpaceChar (c : Char) : Bool :=
  c == ' ' || c == '\t' || c == '\n' || c == '\r'

/-- `String.toLowerCase()` (ASCII), written over the character list so that it
evaluates by kernel reduction. -/
def jsToLower (s : String) : String :=
  String.mk (s.data.map Char.toLower)

/-- `String.trim()`, written over the character list. -/
def jsTrim (s : String) : String :=
  String.mk (((s.data.dropWhile isSpaceChar).reverse.dropWhile isSpaceChar).reverse)

/-- `HIDKeyboard.KEY_CODES`: name → USB HID key code. -/
def KEY_CODES : String → Option Nat
  | "a" => some 0x04
  | "b" => some 0x05
  | "c" => some 0x06
  | "d" => some 0x07
  | "e" => some 0x08
  | "f" => some 0x09
  | "g" => some 0x0a
  | "h" => some 0x0b
  | "i" => some 0x0c
  | "j" => some 0x0d
  | "k" => some 0x0e
  | "l" => some 0x0f
  | "m" => some 0x10
  | "n" => some 0x11
  | "o" => some 0x12
  | "p" => some 0x13
  | "q" => some 0x14
  | "r" => some 0x15
  | "s" => some 0x16
  | "t" => some 0x17
  | "u" => some 0x18
  | "v" => some 0x19
  | "w" => some 0x1a
  | "x" => some 0x1b
  | "y" => some 0x1c
  | "z" => some 0x1d
  | "1" => some 0x1e
  | "2" => some 0x1f
  | "3" => some 0x20
  | "4" => some 0x21
  | "5" => some 0x22
  | "6" => some 0x23
  | "7" => some 0x24
  | "8" => some 0x25
  | "9" => some 0x26
  | "0" => some 0x27
  | "enter" => some 0x28
  | "return" => some 0x28
  | "escape" => some 0x29
  | "esc" => some 0x29
  | "backspace" => some 0x2a
  | "tab" => some 0x2b
  | "space" => some 0x2c
  | "spacebar" => some 0x2c
  | "-" => some 0x2d
  | "minus" => some 0x2d
  | "=" => some 0x2e
  | "equal" => some 0x2e
  | "[" => some 0x2f
  | "]" => some 0x30
  | "\\" => some 0x31
  | "backslash" => some 0x31
  | ";" => some 0x33
  | "semicolon" => some 0x33
  | "\x27" => some 0x34
  | "quote" => some 0x34
  | "\x60" => some 0x35
  | "grave" => some 0x35
  | "," => some 0x36
  | "comma" => some 0x36
  | "." => some 0x37
  | "period" => some 0x37
  | "/" => some 0x38
  | "slash" => some 0x38
  | "f1" => some 0x3a
  | "f2" => some 0x3b
  | "f3" => some 0x3c
  | "f4" => some 0x3d
  | "f5" => some 0x3e
  | "f6" => some 0x3f
  | "f7" => some 0x40
  | "f8" => some 0x41
  | "f9" => some 0x42
  | "f10" => some 0x43
  | "f11" => some 0x44
  | "f12" => some 0x45
  | "insert" => some 0x49
  | "home" => some 0x4a
  | "pageup" => some 0x4b
  | "pagedown" => some 0x4e
  | "delete" => some 0x4c
  | "end" => some 0x4d
  | "right" => some 0x4f
  | "left" => some 0x50
  | "down" => some 0x51
  | "up" => some 0x52
  | "printscreen" => some 0x46
  | "scrolllock" => some 0x47
  | "pause" => some 0x48
  | "capslock" => some 0x39
  | "numlock" => some 0x53
  | "kp_divide" => some 0x54
  | "kp_multiply" => some 0x55
  | "kp_minus" => some 0x56
  | "kp_plus" => some 0x57
  | "kp_enter" => some 0x58
  | "kp_1" => some 0x59
  | "kp_2" => some 0x5a
  | "kp_3" => some 0x5b
  | "kp_4" => some 0x5c
  | "kp_5" => some 0x5d
  | "kp_6" => some 0x5e
  | "kp_7" => some 0x5f
  | "kp_8" => some 0x60
  | "kp_9" => some 0x61
  | "kp_0" => some 0x62
  | "kp_period" => some 0x63
  | _ => none

/-- `HIDKeyboard.MODIFIERS`: modifier name → bitmask value. -/
def MODIFIERS : String → Option Nat
  | "ctrl" => some 0x01
  | "lctrl" => some 0x01
  | "shift" => some 0x02
  | "lshift" => some 0x02
  | "alt" => some 0x04
  | "lalt" => some 0x04
  | "meta" => some 0x08
  | "lmeta" => some 0x08
  | "cmd" => some 0x08
  | "super" => some 0x08
  | "rctrl" => some 0x10
  | "rshift" => some 0x20
  | "ralt" => some 0x40
  | "altgr" => some 0x40
  | "rmeta" => some 0x80
  | "rcmd" => some 0x80
  | _ => none

/-- `HIDKeyboard.SHIFT_CHARACTERS`: character → name of the base key that,
pressed with Shift, produces it. -/
def SHIFT_CHARACTERS : Char → Option String
  | '!' => some "1"
  | '@' => some "2"
  | '#' => some "3"
  | '$' => some "4"
  | '%' => some "5"
  | '^' => some "6"
  | '&' => some "7"
  | '*' => some "8"
  | '(' => some "9"
  | ')' => some "0"
  | '_' => some "-"
  | '+' => some "="
  | '\x7b' => some "["
  | '\x7d' => some "]"
  | '|' => some "\\"
  | ':' => some ";"
  | '\"' => some "\x27"
  | '~' => some "\x60"
  | '<' => some ","
  | '>' => some "."
  | '?' => some "/"
  | 'A' => some "a"
  | 'B' => some "b"
  | 'C' => some "c"
  | 'D' => some "d"
  | 'E' => some "e"
  | 'F' => some "f"
  | 'G' => some "g"
  | 'H' => some "h"
  | 'I' => some "i"
  | 'J' => some "j"
  | 'K' => some "k"
  | 'L' => some "l"
  | 'M' => some "m"
  | 'N' => some "n"
  | 'O' => some "o"
  | 'P' => some "p"
  | 'Q' => some "q"
  | 'R' => some "r"
  | 'S' => some "s"
  | 'T' => some "t"
  | 'U' => some "u"
  | 'V' => some "v"
  | 'W' => some "w"
  | 'X' => some "x"
  | 'Y' => some "y"
  | 'Z' => some "z"
  | _ => none

/-- `_resolveKeyCode`: lowercase, trim, then table lookup (`|| null` only
turns `undefined` into `null`, as no key code in the table is falsy). -/
def resolveKeyCode (key : String) : Option Nat :=
  KEY_CODES (jsTrim (jsToLower key))

/-- `_calculateModifierMask`: OR the bits of the known modifiers, skipping
unknown names. -/
def calculateModifierMask (modifiers : List String) : Nat :=
  modifiers.foldl
    (fun mask modifier =>
      match MODIFIERS (jsTrim (jsToLower modifier)) with
      | some v => mask ||| v
      | none => mask)
    0

/-- Value of byte `2 + i` of the report built by `sendReport`: the loop runs
for `i < min keys.length 6`, and Buffer element assignment truncates to 8
bits. -/
def byteAt (keys : List Nat) (i : Nat) : Nat :=
  if i < min keys.length 6 then keys.getD i 0 % 256 else 0

/-- The 8-byte report as assembled into `this.currentReport`:
`[modifiers, 0, key1, ..., key6]` (Buffer assignment truncates to 8 bits). -/
def buildReport (modifiers : Nat) (keys : List Nat) : List Nat :=
  [modifiers % 256, 0, byteAt keys 0, byteAt keys 1, byteAt keys 2,
   byteAt keys 3, byteAt keys 4, byteAt keys 5]

/-- The all-zero 8-byte report. -/
def zeroReport : List Nat := [0, 0, 0, 0, 0, 0, 0, 0]

/-- `sendReport(modifiers, keys)`: validation, report construction into
`currentReport`, then one 8-byte write (which may fail). -/
def sendReport (w : World) (st : EngineState) (modifiers : Nat) (keys : List Nat) :
    OpResult :=
  if !st.isConnected || !st.deviceHandle then
    ⟨st, [], some HIDError.NotConnected⟩
  else if 255 < modifiers then
    ⟨st, [], some HIDError.InvalidModifierMask⟩
  else if 6 < keys.length then
    ⟨st, [], some HIDError.TooManyKeys⟩
  else
    let rep := buildReport modifiers keys
    let st1 : EngineState := { st with currentReport := rep }
    if w.writeOk then ⟨st1, [rep], none⟩
    else ⟨st1, [], some HIDError.WriteFailed⟩

/-- `releaseAll()`: clear held state, then send the empty report. -/
def releaseAll (w : World) (st : EngineState) : OpResult :=
  let st1 : EngineState := { st with heldModifiers := 0, heldKeys := [] }
  sendReport w st1 0 []

/-- `connect()`: no-op if already connected; on any failure the catch block
sets `isConnected = false` and `deviceHandle = null` and rethrows. -/
def connect (w : World) (st : EngineState) : OpResult :=
  if st.isConnected then ⟨st, [], none⟩
  else if !w.deviceAvailable then
    ⟨{ st with isConnected := false, deviceHandle := false }, [],
      some HIDError.DeviceUnavailable⟩
  else if !w.openOk then
    ⟨{ st with isConnected := false, deviceHandle := false }, [],
      some HIDError.OpenFailed⟩
  else
    ⟨{ st with deviceHandle := true, isConnected := true }, [], none⟩

/-- `disconnect()`: no-op unless connected with a handle; otherwise release
all keys, close the handle and clear the connection fields, with every
failure caught (logged and emitted) so the caller always gets a normal
return. -/
def disconnect (w : World) (st : EngineState) : OpResult :=
  if !st.isConnected || !st.deviceHandle then ⟨st, [], none⟩
  else
    let r := releaseAll w st
    match r.err? with
    | some _ => ⟨r.state, r.writes, none⟩
    | none =>
      if w.closeOk then
        ⟨{ r.state with deviceHandle := false, isConnected := false },
          r.writes, none⟩
      else ⟨r.state, r.writes, none⟩

/-- JavaScript `m &= ~v` on a non-negative 32-bit value: clear the bits of
`v` within the 32-bit range. -/
def jsAndNot (m v : Nat) : Nat := m &&& (4294967295 ^^^ v)

/-- `holdKey(key)`: OR a modifier bit, or append a key code (unknown key
throws; already-held key is a no-op; a 7th key throws), then resend. -/
def holdKey (w : World) (st : EngineState) (key : String) : OpResult :=
  let normalizedKey := jsTrim (jsToLower key)
  match MODIFIERS normalizedKey with
  | some modifierValue =>
    let st1 : EngineState :=
      { st with heldModifiers := st.heldModifiers ||| modifierValue }
    sendReport w st1 st1.heldModifiers st1.heldKeys
  | none =>
    match resolveKeyCode key with
    | none => ⟨st, [], some (HIDError.UnknownKey key)⟩
    | some keyCode =>
      if keyCode ∈ st.heldKeys then ⟨st, [], none⟩
      else if 6 ≤ st.heldKeys.length then
        ⟨st, [], some HIDError.MaxKeysExceeded⟩
      else
        let st1 : EngineState := { st with heldKeys := st.heldKeys ++ [keyCode] }
        sendReport w st1 st1.heldModifiers st1.heldKeys

/-- `releaseKey(key)`: clear a modifier bit, or remove the first occurrence
of the key code (unknown or not-held names return normally), then resend. -/
def releaseKey (w : World) (st : EngineState) (key : String) : OpResult :=
  let normalizedKey := jsTrim (jsToLower key)
  match MODIFIERS normalizedKey with
  | some modifierValue =>
    let st1 : EngineState :=
      { st with heldModifiers := jsAndNot st.heldModifiers modifierValue }
    sendReport w st1 st1.heldModifiers st1.heldKeys
  | none =>
    match resolveKeyCode key with
    | none => ⟨st, [], none⟩
    | some keyCode =>
      if keyCode ∈ st.heldKeys then
        let st1 : EngineState := { st with heldKeys := st.heldKeys.erase keyCode }
        sendReport w st1 st1.heldModifiers st1.heldKeys
      else ⟨st, [], none⟩

/-- Options of `pressKey`: `none` means "not supplied", falling back to the
configuration defaults. -/
structure PressOptions where
  modifiers : List String
  holdTime : Option Nat
  autoRelease : Option Bool
deriving DecidableEq, Repr

/-- Empty `pressKey` options (every field at its default). -/
def noOptions : PressOptions := ⟨[], none, none⟩

/-- `pressKey(key, options)`: resolve, send mask + single key, wait, then
either release everything or overwrite the held state with this key/mask. -/
def pressKey (w : World) (st : EngineState) (key : String) (options : PressOptions) :
    OpResult :=
  match resolveKeyCode key with
  | none => ⟨st, [], some (HIDError.UnknownKey key)⟩
  | some keyCode =>
    let modifierMask := calculateModifierMask options.modifiers
    let r := sendReport w st modifierMask [keyCode]
    match r.err? with
    | some e => ⟨r.state, r.writes, some e⟩
    | none =>
      let autoRel := options.autoRelease.getD st.config.autoRelease
      if autoRel then
        let r2 := releaseAll w r.state
        ⟨r2.state, r.writes ++ r2.writes, r2.err?⟩
      else
        ⟨{ r.state with heldModifiers := modifierMask, heldKeys := [keyCode] },
          r.writes, none⟩

/-- `String.split(sep)` on a single-character separator, written over the
character list (empty fields between adjacent separators are kept, as in
JavaScript). -/
def splitOnChar (sep : Char) : List Char → List (List Char)
  | [] => [[]]
  | c :: rest =>
    let r := splitOnChar sep rest
    if c = sep then [] :: r
    else
      match r with
      | [] => [[c]]
      | g :: gs => (c :: g) :: gs

/-- First modifier token of the combination that fails the table lookup, if
any (the source throws on the first unknown one). -/
def firstUnknownModifier : List String → Option String
  | [] => none
  | modifier :: rest =>
    match MODIFIERS modifier with
    | some _ => firstUnknownModifier rest
    | none => some modifier

/-- `sendKeyCombination(combination, options)`: lowercase, split on `+`,
trim; all but the last token are modifiers, the last is the key. -/
def sendKeyCombination (w : World) (st : EngineState) (combination : String)
    (options : PressOptions) : OpResult :=
  let parts :=
    (splitOnChar '+' (jsToLower combination).data).map (fun g => jsTrim (String.mk g))
  if parts.length < 2 then ⟨st, [], some HIDError.InvalidCombination⟩
  else
    match firstUnknownModifier parts.dropLast with
    | some m => ⟨st, [], some (HIDError.UnknownModifier m)⟩
    | none =>
      pressKey w st (parts.getLastD "")
        ⟨parts.dropLast, options.holdTime, options.autoRelease⟩

/-- Options of `typeText` (`delay` only times the loop and is irrelevant to
the state transitions modelled here). -/
structure TypeOptions where
  delay : Option Nat
  preserveCase : Bool
deriving DecidableEq, Repr

/-- Default `typeText` options. -/
def defaultTypeOptions : TypeOptions := ⟨none, true⟩

/-- Result of `typeText`: the operation itself never throws — per-character
press errors are caught and reported as `typingError` events, and
unrecognised characters as `characterSkipped` events (position, character). -/
structure TypeResult where
  state : EngineState
  writes : List (List Nat)
  skipped : List (Nat × Char)
  errors : List (Nat × HIDError)
deriving DecidableEq, Repr

/-- One character of the `typeText` loop: shifted character, space, direct
key, or none of these (`none` = the character is skipped). -/
def typeStep (w : World) (opts : TypeOptions) (st : EngineState) (c : Char) :
    Option OpResult :=
  match (if opts.preserveCase then SHIFT_CHARACTERS c else none) with
  | some baseChar => some (pressKey w st baseChar ⟨["shift"], none, none⟩)
  | none =>
    if c = ' ' then some (pressKey w st "space" noOptions)
    else
      match KEY_CODES (Char.toLower c).toString with
      | some _ => some (pressKey w st (Char.toLower c).toString noOptions)
      | none => none

/-- The `typeText` character loop, carrying the position for events. -/
def typeTextAux (w : World) (opts : TypeOptions) :
    EngineState → List Char → Nat → TypeResult
  | st, [], _ => ⟨st, [], [], []⟩
  | st, c :: rest, i =>
    match typeStep w opts st c with
    | none =>
      let r := typeTextAux w opts st rest (i + 1)
      ⟨r.state, r.writes, (i, c) :: r.skipped, r.errors⟩
    | some res =>
      let r := typeTextAux w opts res.state rest (i + 1)
      match res.err? with
      | none => ⟨r.state, res.writes ++ r.writes, r.skipped, r.errors⟩
      | some e => ⟨r.state, res.writes ++ r.writes, r.skipped, (i, e) :: r.errors⟩

/-- `typeText(text, options)`. -/
def typeText (w : World) (st : EngineState) (text : List Char) (opts : TypeOptions) :
    TypeResult :=
  typeTextAux w opts st text 0

/-- One action of `executeSequence`: the source dispatches on the string
`action.type`, and any other tag hits the `default:` case and throws. -/
inductive SeqAction where
  | keyAct (key : String) (options : PressOptions)
  | textAct (text : List Char) (options : TypeOptions)
  | delayAct (duration : Option Nat)
  | releaseAct
  | otherAct (tag : String)
deriving DecidableEq, Repr

/-- Dispatch of one action inside `executeSequence`. -/
def execAction (w : World) (st : EngineState) : SeqAction → OpResult
  | SeqAction.keyAct key options =>
    if key.data.contains '+' then sendKeyCombination w st key options
    else pressKey w st key options
  | SeqAction.textAct text options =>
    let r := typeText w st text options
    ⟨r.state, r.writes, none⟩
  | SeqAction.delayAct _ => ⟨st, [], none⟩
  | SeqAction.releaseAct => releaseAll w st
  | SeqAction.otherAct tag => ⟨st, [], some (HIDError.UnknownActionType tag)⟩

/-- Result of `executeSequence`: an error is surfaced together with the index
of the failing action (the `sequenceError` event carries the index, and the
rethrow aborts the loop). -/
structure SeqResult where
  state : EngineState
  writes : List (List Nat)
  err? : Option (Nat × HIDError)
deriving DecidableEq, Repr

/-- The `executeSequence` loop from index `i`. -/
def executeSequenceAux (w : World) : EngineState → List SeqAction → Nat → SeqResult
  | st, [], _ => ⟨st, [], none⟩
  | st, a :: rest, i =>
    let r := execAction w st a
    match r.err? with
    | some e => ⟨r.state, r.writes, some (i, e)⟩
    | none =>
      let r2 := executeSequenceAux w r.state rest (i + 1)
      ⟨r2.state, r.writes ++ r2.writes, r2.err?⟩

/-- `executeSequence(actions)`. -/
def executeSequence (w : World) (st : EngineState) (actions : List SeqAction) :
    SeqResult :=
  executeSequenceAux w st actions 0

/-- One hold/release command, for stating invariants over sequences of the
two sticky operations. -/
inductive HROp where
  | hold (key : String)
  | rel (key : String)
deriving DecidableEq, Repr

/-- Run a list of hold/release commands, keeping the resulting state of each
(failed commands keep whatever mutation the source performed before the
throw, exactly as the JavaScript instance would). -/
def runHoldRelease (w : World) (st : EngineState) : List HROp → EngineState
  | [] => st
  | HROp.hold k :: rest => runHoldRelease w (holdKey w st k).state rest
  | HROp.rel k :: rest => runHoldRelease w (releaseKey w st k).state rest

/-- A freshly constructed, successfully connected engine with nothing held. -/
def connState : EngineState := ⟨defaultConfig, true, true, zeroReport, 0, []⟩

/-- A connected engine whose left-shift modifier bit is already held. -/
def shiftHeldState : EngineState := { connState with heldModifiers := 2 }

/-- A connected engine holding the Ctrl bit and the key `b` (0x05). -/
def mixedHeldState : EngineState :=
  { connState with heldModifiers := 1, heldKeys := [5] }

/-- A connected engine already holding six keys (`a` through `f`). -/
def fullHeldState : EngineState :=
  { connState with heldKeys := [4, 5, 6, 7, 8, 9] }

/-- An engine that is not connected (fresh, or after a clean disconnect). -/
def disconnectedState : EngineState :=
  { connState with isConnected := false, deviceHandle := false }

/-- Helper bound: every value in the modifier table fits in one byte. -/
theorem MODIFIERS_le (s : String) (v : Nat) (h : MODIFIERS s = some v) : v ≤ 255 := by
  unfold MODIFIERS at h
  split at h <;> simp_all <;> omega

/-- The computed modifier mask of any modifier-name list fits in one byte. -/
theorem calculateModifierMask_le (modifiers : List String) :
    calculateModifierMask modifiers ≤ 255 := by
  unfold calculateModifierMask
  have h : ∀ (l : List String) (acc : Nat), acc ≤ 255 →
      (l.foldl
        (fun mask modifier =>
          match MODIFIERS (jsTrim (jsToLower modifier)) with
          | some v => mask ||| v
          | none => mask)
        acc) ≤ 255 := by
    intro l
    induction l with
    | nil => intro acc hacc; simpa using hacc
    | cons hd tl ih =>
      intro acc hacc
      simp only [List.foldl_cons]
      apply ih
      cases hmv : MODIFIERS (jsTrim (jsToLower hd)) with
      | none => simpa [hmv] using hacc
      | some v =>
        simp only [hmv]
        have hv := MODIFIERS_le _ _ hmv
        have : acc ||| v < 2 ^ 8 :=
          Nat.or_lt_two_pow (by omega) (by omega)
        omega
  exact h modifiers 0 (by omega)

/-- `sendReport` never changes the held-key list. -/
theorem sendReport_heldKeys (w : World) (st : EngineState) (m : Nat) (ks : List Nat) :
    (sendReport w st m ks).state.heldKeys = st.heldKeys := by
  unfold sendReport
  repeat' split
  all_goals rfl

/-- `sendReport` never changes the held-modifier bitmask. -/
theorem sendReport_heldModifiers (w : World) (st : EngineState) (m : Nat) (ks : List Nat) :
    (sendReport w st m ks).state.heldModifiers = st.heldModifiers := by
  unfold sendReport
  repeat' split
  all_goals rfl

/-- `sendReport` on a connected engine in a world whose writes succeed, with
valid inputs, performs exactly one write of the built report. -/
theorem sendReport_ok (w : World) (st : EngineState) (m : Nat) (ks : List Nat)
    (hc : st.isConnected = true) (hh : st.deviceHandle = true) (hw : w.writeOk = true)
    (hm : m ≤ 255) (hk : ks.length ≤ 6) :
    sendReport w st m ks =
      ⟨{ st with currentReport := buildReport m ks }, [buildReport m ks], none⟩ := by
  unfold sendReport
  rw [hc, hh]
  simp only [Bool.not_true, Bool.or_self, Bool.false_eq_true, if_false]
  rw [if_neg (by omega), if_neg (by omega), hw]
  simp

/-- The built report is the mask, the reserved zero, and the key codes
left-packed and zero-padded, whenever the inputs are in range. -/
theorem buildReport_eq (m : Nat) (keys : List Nat) (hm : m ≤ 255)
    (hk : keys.length ≤ 6) (hb : ∀ k ∈ keys, k ≤ 255) :
    buildReport m keys = m :: 0 :: (keys ++ List.replicate (6 - keys.length) 0) := by
  have hmod : m % 256 = m := Nat.mod_eq_of_lt (by omega)
  rcases keys with _ | ⟨a, _ | ⟨b, _ | ⟨c, _ | ⟨d, _ | ⟨e, _ | ⟨f, _ | ⟨g, rest⟩⟩⟩⟩⟩⟩⟩
  · norm_num [buildReport, byteAt, hmod]
    all_goals decide
  · have ha : a % 256 = a := Nat.mod_eq_of_lt (by have := hb a (by simp); omega)
    norm_num [buildReport, byteAt, hmod, ha]
    all_goals decide
  · have ha : a % 256 = a := Nat.mod_eq_of_lt (by have := hb a (by simp); omega)
    have hb2 : b % 256 = b := Nat.mod_eq_of_lt (by have := hb b (by simp); omega)
    norm_num [buildReport, byteAt, hmod, ha, hb2]
    all_goals decide
  · have ha : a % 256 = a := Nat.mod_eq_of_lt (by have := hb a (by simp); omega)
    have hb2 : b % 256 = b := Nat.mod_eq_of_lt (by have := hb b (by simp); omega)
    have hc2 : c % 256 = c := Nat.mod_eq_of_lt (by have := hb c (by simp); omega)
    norm_num [buildReport, byteAt, hmod, ha, hb2, hc2]
    all_goals decide
  · have ha : a % 256 = a := Nat.mod_eq_of_lt (by have := hb a (by simp); omega)
    have hb2 : b % 256 = b := Nat.mod_eq_of_lt (by have := hb b (by simp); omega)
    have hc2 : c % 256 = c := Nat.mod_eq_of_lt (by have := hb c (by simp); omega)
    have hd2 : d % 256 = d := Nat.mod_eq_of_lt (by have := hb d (by simp); omega)
    norm_num [buildReport, byteAt, hmod, ha, hb2, hc2, hd2]
    all_goals decide
  · have ha : a % 256 = a := Nat.mod_eq_of_lt (by have := hb a (by simp); omega)
    have hb2 : b % 256 = b := Nat.mod_eq_of_lt (by have := hb b (by simp); omega)
    have hc2 : c % 256 = c := Nat.mod_eq_of_lt (by have := hb c (by simp); omega)
    have hd2 : d % 256 = d := Nat.mod_eq_of_lt (by have := hb d (by simp); omega)
    have he2 : e % 256 = e := Nat.mod_eq_of_lt (by have := hb e (by simp); omega)
    norm_num [buildReport, byteAt, hmod, ha, hb2, hc2, hd2, he2]
  · have ha : a % 256 = a := Nat.mod_eq_of_lt (by have := hb a (by simp); omega)
    have hb2 : b % 256 = b := Nat.mod_eq_of_lt (by have := hb b (by simp); omega)
    have hc2 : c % 256 = c := Nat.mod_eq_of_lt (by have := hb c (by simp); omega)
    have hd2 : d % 256 = d := Nat.mod_eq_of_lt (by have := hb d (by simp); omega)
    have he2 : e % 256 = e := Nat.mod_eq_of_lt (by have := hb e (by simp); omega)
    have hf2 : f % 256 = f := Nat.mod_eq_of_lt (by have := hb f (by simp); omega)
    norm_num [buildReport, byteAt, hmod, ha, hb2, hc2, hd2, he2, hf2]
  · exfalso
    simp only [List.length_cons] at hk
    omega

/-- `disconnect` never surfaces an error, whatever the world does. -/
theorem disconnect_err_none (w : World) (st : EngineState) :
    (disconnect w st).err? = none := by
  simp only [disconnect]
  split
  · rfl
  · cases hres : (releaseAll w st).err? with
    | some e => rfl
    | none =>
      by_cases hclose : w.closeOk = true
      · rw [if_pos hclose]
      · rw [if_neg hclose]

/-- `holdKey` of a name whose normalization is in the modifier table ORs the
bit into the held mask and leaves the held keys alone. -/
theorem holdKey_modifier (w : World) (st : EngineState) (key : String) (mv : Nat)
    (h : MODIFIERS (jsTrim (jsToLower key)) = some mv) :
    (holdKey w st key).state.heldModifiers = st.heldModifiers ||| mv ∧
    (holdKey w st key).state.heldKeys = st.heldKeys := by
  unfold holdKey
  simp only [h]
  rw [sendReport_heldModifiers, sendReport_heldKeys]
  exact ⟨rfl, rfl⟩

/-- `releaseKey` of a name whose normalization is in the modifier table
clears the bit (32-bit `&= ~v`) and leaves the held keys alone. -/
theorem releaseKey_modifier (w : World) (st : EngineState) (key : String) (mv : Nat)
    (h : MODIFIERS (jsTrim (jsToLower key)) = some mv) :
    (releaseKey w st key).state.heldModifiers = jsAndNot st.heldModifiers mv ∧
    (releaseKey w st key).state.heldKeys = st.heldKeys := by
  unfold releaseKey
  simp only [h]
  rw [sendReport_heldModifiers, sendReport_heldKeys]
  exact ⟨rfl, rfl⟩

/-- Clearing a bit that was not set, within the 32-bit range, is the
identity: the algebraic heart of the shift round-trip. -/
theorem jsAndNot_lor_cancel (m : Nat) (h1 : m &&& 2 = 0) (h2 : m < 4294967296) :
    jsAndNot (m ||| 2) 2 = m := by
  have hbit1 : m.testBit 1 = false := by
    have h := congrArg (fun x => Nat.testBit x 1) h1
    simp only [Nat.testBit_land] at h
    have ht : Nat.testBit 2 1 = true := by decide
    have hz : Nat.testBit 0 1 = false := by decide
    rw [ht, hz, Bool.and_true] at h
    exact h
  unfold jsAndNot
  apply Nat.eq_of_testBit_eq
  intro i
  rw [Nat.testBit_land, Nat.testBit_lor, Nat.testBit_xor]
  have h2p : (2 : Nat) = 2 ^ 1 := by norm_num
  have hmask : (4294967295 : Nat) = 2 ^ 32 - 1 := by norm_num
  rw [h2p, hmask, Nat.testBit_two_pow, Nat.testBit_two_pow_sub_one]
  by_cases hi1 : i = 1
  · subst hi1
    simp [hbit1]
  · by_cases hi32 : i < 32
    · simp [hi1, hi32, Ne.symm hi1]
    · have hfalse : m.testBit i = false := by
        apply Nat.testBit_eq_false_of_lt
        calc m < 4294967296 := h2
          _ = 2 ^ 32 := by norm_num
          _ ≤ 2 ^ i := Nat.pow_le_pow_right (by norm_num) (by omega)
      simp [hfalse, hi1, hi32, Ne.symm hi1]

/-- One `holdKey` call keeps the held-key list within the six-slot limit. -/
theorem holdKey_length (w : World) (st : EngineState) (key : String)
    (h : st.heldKeys.length ≤ 6) :
    (holdKey w st key).state.heldKeys.length ≤ 6 := by
  unfold holdKey
  cases hmod : MODIFIERS (jsTrim (jsToLower key)) with
  | some mv =>
    simp only [hmod]
    rw [sendReport_heldKeys]
    simpa using h
  | none =>
    simp only [hmod]
    cases hres : resolveKeyCode key with
    | none => simpa using h
    | some kc =>
      simp only
      by_cases hmem : kc ∈ st.heldKeys
      · rw [if_pos hmem]
        simpa using h
      · rw [if_neg hmem]
        by_cases hfull : 6 ≤ st.heldKeys.length
        · rw [if_pos hfull]
          simpa using h
        · rw [if_neg hfull]
          rw [sendReport_heldKeys]
          simp only [List.length_append, List.length_cons, List.length_nil]
          omega

/-- One `releaseKey` call keeps the held-key list within the six-slot
limit. -/
theorem releaseKey_length (w : World) (st : EngineState) (key : String)
    (h : st.heldKeys.length ≤ 6) :
    (releaseKey w st key).state.heldKeys.length ≤ 6 := by
  unfold releaseKey
  cases hmod : MODIFIERS (jsTrim (jsToLower key)) with
  | some mv =>
    simp only [hmod]
    rw [sendReport_heldKeys]
    simpa using h
  | none =>
    simp only [hmod]
    cases hres : resolveKeyCode key with
    | none => simpa using h
    | some kc =>
      simp only
      by_cases hmem : kc ∈ st.heldKeys
      · rw [if_pos hmem]
        rw [sendReport_heldKeys]
        have hsub : (st.heldKeys.erase kc).length ≤ st.heldKeys.length :=
          (List.erase_sublist _ _).length_le
        simp only
        omega
      · rw [if_neg hmem]
        simpa using h

/-- Any sequence of hold/release commands keeps the held-key list within the
six-slot limit. -/
theorem runHoldRelease_length (w : World) (ops : List HROp) :
    ∀ (st : EngineState), st.heldKeys.length ≤ 6 →
      (runHoldRelease w st ops).heldKeys.length ≤ 6 := by
  induction ops with
  | nil =>
    intro st h
    simpa [runHoldRelease] using h
  | cons op rest ih =>
    intro st h
    cases op with
    | hold k => exact ih _ (holdKey_length w st k h)
    | rel k => exact ih _ (releaseKey_length w st k h)

/-- If the loop runs a prefix cleanly and the next action fails, the whole
loop stops there: the failing action's state and writes are final, its index
and error are surfaced, and the suffix after it is never executed. -/
theorem executeSequenceAux_append_fail (w : World) (post : List SeqAction)
    (a : SeqAction) (e : HIDError) :
    ∀ (pre : List SeqAction) (st st1 : EngineState) (tr : List (List Nat)) (i : Nat),
      executeSequenceAux w st pre i = ⟨st1, tr, none⟩ →
      (execAction w st1 a).err? = some e →
      executeSequenceAux w st (pre ++ a :: post) i =
        ⟨(execAction w st1 a).state, tr ++ (execAction w st1 a).writes,
          some (i + pre.length, e)⟩ := by
  intro pre
  induction pre with
  | nil =>
    intro st st1 tr i h1 h2
    simp only [executeSequenceAux, SeqResult.mk.injEq] at h1
    obtain ⟨hs, hw, _⟩ := h1
    subst hs
    subst hw
    simp only [List.nil_append, List.length_nil, Nat.add_zero]
    unfold executeSequenceAux
    simp only [h2, List.nil_append]
  | cons b pre ih =>
    intro st st1 tr i h1 h2
    simp only [List.cons_append]
    unfold executeSequenceAux at h1 ⊢
    cases hb : (execAction w st b).err? with
    | some e' =>
      simp only [hb, SeqResult.mk.injEq] at h1
      exact absurd h1.2.2 (by simp)
    | none =>
      simp only [hb] at h1 ⊢
      rcases hr : executeSequenceAux w (execAction w st b).state pre (i + 1) with ⟨s2, w2, e2⟩
      rw [hr] at h1
      simp only [SeqResult.mk.injEq] at h1
      obtain ⟨hs2, hw2, he2⟩ := h1
      subst hs2
      subst he2
      have hstep := ih (execAction w st b).state s2 w2 (i + 1) hr h2
      rw [hstep]
      simp only [SeqResult.mk.injEq]
      refine ⟨trivial, ?_, ?_⟩
      · rw [← hw2, List.append_assoc]
      · have : i + 1 + pre.length = i + (b :: pre).length := by
          simp only [List.length_cons]
          omega
        rw [this]

/-- C1: for every modifier mask in 0..255 and every key list of at most six
8-bit key codes, when connected with a working device, `sendReport(mask,
keys)` builds and writes exactly 8 bytes: byte 0 is the mask, byte 1 is 0,
and bytes 2..7 are the key codes left-packed in list order, zero-padded. -/
theorem sendReport_writes_packed_report (w : World) (st : EngineState)
    (mask : Nat) (keys : List Nat)
    (hc : st.isConnected = true) (hh : st.deviceHandle = true)
    (hw : w.writeOk = true) (hm : mask ≤ 255) (hk : keys.length ≤ 6)
    (hb : ∀ k ∈ keys, k ≤ 255) :
    (sendReport w st mask keys).writes
      = [mask :: 0 :: (keys ++ List.replicate (6 - keys.length) 0)] ∧
    (mask :: 0 :: (keys ++ List.replicate (6 - keys.length) 0)).length = 8 := by
  constructor
  · rw [sendReport_ok w st mask keys hc hh hw hm hk]
    rw [buildReport_eq mask keys hm hk hb]
  · simp only [List.length_cons, List.length_append, List.length_replicate]
    omega

/-- C1 witness: the spec's concrete instance — `sendReport(0x03, [0x04,
0x05])` writes `[0x03, 0x00, 0x04, 0x05, 0x00, 0x00, 0x00, 0x00]`. -/
theorem sendReport_writes_packed_report_witness :
    (sendReport allOk connState 3 [4, 5]).writes = [[3, 0, 4, 5, 0, 0, 0, 0]] ∧
    ([3, 0, 4, 5, 0, 0, 0, 0] : List Nat).length = 8 :=
  sendReport_writes_packed_report allOk connState 3 [4, 5] rfl rfl rfl
    (by omega) (by decide) (by decide)

/-- C2: after any sequence of hold/release operations starting within the
six-slot limit, the held-key list still has length at most 6; and `holdKey`
of a distinct non-modifier key when six keys are already held fails with
`MaxKeysExceeded` and returns the state exactly as it was, with no write. -/
theorem heldKeys_bounded_and_seventh_key_rejected
    (w : World) (st stFull : EngineState) (ops : List HROp) (name : String) (kc : Nat)
    (h0 : st.heldKeys.length ≤ 6)
    (h1 : MODIFIERS (jsTrim (jsToLower name)) = none)
    (h2 : resolveKeyCode name = some kc)
    (h3 : kc ∉ stFull.heldKeys)
    (h4 : stFull.heldKeys.length = 6) :
    (runHoldRelease w st ops).heldKeys.length ≤ 6 ∧
    holdKey w stFull name = ⟨stFull, [], some HIDError.MaxKeysExceeded⟩ := by
  constructor
  · exact runHoldRelease_length w ops st h0
  · unfold holdKey
    simp only [h1, h2]
    rw [if_neg h3, if_pos (by omega : 6 ≤ stFull.heldKeys.length)]

/-- C2 witness: holding `a`..`f` then attempting `g` stays within the limit,
and `holdKey("g")` on a full engine is rejected without mutation. -/
theorem heldKeys_bounded_and_seventh_key_rejected_witness :
    (runHoldRelease allOk connState
        [HROp.hold "a", HROp.hold "b", HROp.hold "c", HROp.hold "d",
         HROp.hold "e", HROp.hold "f", HROp.hold "g"]).heldKeys.length ≤ 6 ∧
    holdKey allOk fullHeldState "g"
      = ⟨fullHeldState, [], some HIDError.MaxKeysExceeded⟩ :=
  heldKeys_bounded_and_seventh_key_rejected allOk connState fullHeldState
    [HROp.hold "a", HROp.hold "b", HROp.hold "c", HROp.hold "d",
     HROp.hold "e", HROp.hold "f", HROp.hold "g"] "g" 10
    (by decide) (by decide) (by decide) (by decide) (by decide)

/-- C3 counterexample: from a connected state where the shift bit is already
held, `holdKey("shift")` then `releaseKey("shift")` both succeed yet end with
`heldModifiers = 0`, not the prior value 2 — the round-trip is not restoring
for every prior engine state. -/
theorem shift_roundtrip_fails_when_shift_already_held :
    (holdKey allOk shiftHeldState "shift").err? = none ∧
    (releaseKey allOk (holdKey allOk shiftHeldState "shift").state "shift").err? = none ∧
    (releaseKey allOk (holdKey allOk shiftHeldState "shift").state "shift").state.heldModifiers
      ≠ shiftHeldState.heldModifiers :=
  ⟨by decide, by decide, by decide⟩

/-- C3 amended: for every prior engine state whose `heldModifiers` does not
already contain the shift bit 0x02 (and fits in 32 bits, as every reachable
mask does), `holdKey("shift")` followed by `releaseKey("shift")` restores
`heldModifiers` bit-for-bit. -/
theorem shift_roundtrip_restores_modifiers (w : World) (st : EngineState)
    (h1 : st.heldModifiers &&& 2 = 0) (h2 : st.heldModifiers < 4294967296) :
    (releaseKey w (holdKey w st "shift").state "shift").state.heldModifiers
      = st.heldModifiers := by
  have hmods : MODIFIERS (jsTrim (jsToLower "shift")) = some 2 := by decide
  obtain ⟨hm1, _⟩ := holdKey_modifier w st "shift" 2 hmods
  obtain ⟨hm2, _⟩ := releaseKey_modifier w (holdKey w st "shift").state "shift" 2 hmods
  rw [hm2, hm1]
  exact jsAndNot_lor_cancel st.heldModifiers h1 h2

/-- C3 amended witness: the round-trip at a fresh connected engine. -/
theorem shift_roundtrip_restores_modifiers_witness :
    (releaseKey allOk (holdKey allOk connState "shift").state "shift").state.heldModifiers
      = connState.heldModifiers :=
  shift_roundtrip_restores_modifiers allOk connState (by decide) (by decide)

/-- Helper: the empty report built by `releaseAll` is the zero report. -/
theorem buildReport_nil : buildReport 0 [] = zeroReport := by decide

/-- Helper: `releaseAll` on a connected engine with a working device clears
the held state and writes exactly the all-zero report. -/
theorem releaseAll_ok (w : World) (st : EngineState)
    (hc : st.isConnected = true) (hh : st.deviceHandle = true) (hw : w.writeOk = true) :
    releaseAll w st =
      ⟨{ st with heldModifiers := 0, heldKeys := [], currentReport := zeroReport },
        [zeroReport], none⟩ := by
  unfold releaseAll
  rw [sendReport_ok w _ 0 [] (by simpa using hc) (by simpa using hh) hw
      (by omega) (by simp)]
  rw [buildReport_nil]

/-- C4 counterexample: pressing `a` with `autoRelease: false` from a
connected state holding the Ctrl bit and key `b` (0x05) succeeds, yet the
previously held key is gone from `heldKeys` and the previously held modifier
bit is gone from `heldModifiers` — held state is not merged with the press. -/
theorem pressKey_no_autoRelease_discards_held :
    (pressKey allOk mixedHeldState "a" ⟨[], none, some false⟩).err? = none ∧
    5 ∉ (pressKey allOk mixedHeldState "a" ⟨[], none, some false⟩).state.heldKeys ∧
    (pressKey allOk mixedHeldState "a" ⟨[], none, some false⟩).state.heldModifiers &&& 1 = 0 :=
  ⟨by decide, by decide, by decide⟩

/-- C4 amended: with `autoRelease: false` on a resolvable key, a connected
working engine ends with its held state replaced by exactly the pressed key
and its computed modifier mask (`heldKeys = [keyCode]`,
`heldModifiers = mask`); previously held keys and modifier bits are
discarded, not merged. -/
theorem pressKey_no_autoRelease_replaces_held (w : World) (st : EngineState)
    (key : String) (kc : Nat) (options : PressOptions)
    (h1 : resolveKeyCode key = some kc)
    (h2 : options.autoRelease = some false)
    (hc : st.isConnected = true) (hh : st.deviceHandle = true)
    (hw : w.writeOk = true) :
    (pressKey w st key options).err? = none ∧
    (pressKey w st key options).state.heldKeys = [kc] ∧
    (pressKey w st key options).state.heldModifiers
      = calculateModifierMask options.modifiers := by
  unfold pressKey
  simp only [h1]
  rw [sendReport_ok w st (calculateModifierMask options.modifiers) [kc] hc hh hw
      (calculateModifierMask_le options.modifiers) (by simp)]
  simp [h2]

/-- C4 amended witness: pressing `a` with Ctrl requested and
`autoRelease: false` on a fresh connected engine. -/
theorem pressKey_no_autoRelease_replaces_held_witness :
    (pressKey allOk connState "a" ⟨["ctrl"], none, some false⟩).err? = none ∧
    (pressKey allOk connState "a" ⟨["ctrl"], none, some false⟩).state.heldKeys = [4] ∧
    (pressKey allOk connState "a" ⟨["ctrl"], none, some false⟩).state.heldModifiers
      = calculateModifierMask ["ctrl"] :=
  pressKey_no_autoRelease_replaces_held allOk connState "a" 4
    ⟨["ctrl"], none, some false⟩ (by decide) rfl rfl rfl rfl

/-- C5: `disconnect` on a connected engine with a working device performs a
full key release whose only write is the all-zero report before the handle
is closed, ends disconnected with a null handle, is a no-op when already
disconnected, and returns normally (no error surfaced) in every world,
including worlds where the release write or the close fails. -/
theorem disconnect_releases_then_closes (w w2 : World) (st stD st2 : EngineState)
    (hc : st.isConnected = true) (hh : st.deviceHandle = true)
    (hw : w.writeOk = true) (hcl : w.closeOk = true)
    (hd : stD.isConnected = false) :
    (disconnect w st).writes = [zeroReport] ∧
    (disconnect w st).state.isConnected = false ∧
    (disconnect w st).state.deviceHandle = false ∧
    (disconnect w st).err? = none ∧
    disconnect w stD = ⟨stD, [], none⟩ ∧
    (disconnect w2 st2).err? = none := by
  have hcond : (!st.isConnected || !st.deviceHandle) = false := by
    rw [hc, hh]
    rfl
  have hcondD : (!stD.isConnected || !stD.deviceHandle) = true := by
    rw [hd]
    rfl
  have hrel := releaseAll_ok w st hc hh hw
  refine ⟨?_, ?_, ?_, disconnect_err_none w st, ?_, disconnect_err_none w2 st2⟩
  · simp only [disconnect, hcond, Bool.false_eq_true, if_false, hrel, hcl, if_true]
  · simp only [disconnect, hcond, Bool.false_eq_true, if_false, hrel, hcl, if_true]
  · simp only [disconnect, hcond, Bool.false_eq_true, if_false, hrel, hcl, if_true]
  · unfold disconnect
    rw [if_pos hcondD]

/-- C5 witness: disconnecting a connected engine holding six keys writes the
zero report and tears down; disconnecting again is a no-op; and a disconnect
whose release write and close both fail still returns without error. -/
theorem disconnect_releases_then_closes_witness :
    (disconnect allOk fullHeldState).writes = [zeroReport] ∧
    (disconnect allOk fullHeldState).state.isConnected = false ∧
    (disconnect allOk fullHeldState).state.deviceHandle = false ∧
    (disconnect allOk fullHeldState).err? = none ∧
    disconnect allOk disconnectedState = ⟨disconnectedState, [], none⟩ ∧
    (disconnect ⟨true, true, false, false⟩ fullHeldState).err? = none :=
  disconnect_releases_then_closes allOk ⟨true, true, false, false⟩
    fullHeldState disconnectedState fullHeldState rfl rfl rfl rfl rfl

/-- C6: `pressKey` of a name that does not resolve to a key code fails with
`UnknownKey`, writes nothing to the device, and returns the engine state
exactly as it was before the call. -/
theorem pressKey_unknown_leaves_state (w : World) (st : EngineState)
    (key : String) (options : PressOptions)
    (h : resolveKeyCode key = none) :
    pressKey w st key options = ⟨st, [], some (HIDError.UnknownKey key)⟩ := by
  unfold pressKey
  simp only [h]

/-- C6 witness: `pressKey("pineapple")` on a fresh connected engine. -/
theorem pressKey_unknown_leaves_state_witness :
    pressKey allOk connState "pineapple" noOptions
      = ⟨connState, [], some (HIDError.UnknownKey "pineapple")⟩ :=
  pressKey_unknown_leaves_state allOk connState "pineapple" noOptions (by decide)

/-- C7: `typeText("Hi!")` with default options writes, in order, a shifted
`h` report (Shift bit 0x02 + key 0x0b), a release, a plain `i` report
(0x0c), a release, and a shifted `1` report (Shift + 0x1e) for `!`, followed
by a release, with nothing skipped and no per-character error; and any
character matching neither the shift table, space, nor a direct key is
recorded as skipped at its position while the rest of the text is still
processed. -/
theorem typeText_scenario_and_skips (w : World) (opts : TypeOptions)
    (st : EngineState) (c : Char) (rest : List Char) (i : Nat)
    (h1 : SHIFT_CHARACTERS c = none)
    (h2 : ¬ c = ' ')
    (h3 : KEY_CODES (Char.toLower c).toString = none) :
    (typeText allOk connState "Hi!".toList defaultTypeOptions).writes =
      [[2, 0, 11, 0, 0, 0, 0, 0], zeroReport,
       [0, 0, 12, 0, 0, 0, 0, 0], zeroReport,
       [2, 0, 30, 0, 0, 0, 0, 0], zeroReport] ∧
    (typeText allOk connState "Hi!".toList defaultTypeOptions).skipped = [] ∧
    (typeText allOk connState "Hi!".toList defaultTypeOptions).errors = [] ∧
    typeTextAux w opts st (c :: rest) i =
      ⟨(typeTextAux w opts st rest (i + 1)).state,
       (typeTextAux w opts st rest (i + 1)).writes,
       (i, c) :: (typeTextAux w opts st rest (i + 1)).skipped,
       (typeTextAux w opts st rest (i + 1)).errors⟩ := by
  have hstep : typeStep w opts st c = none := by
    unfold typeStep
    simp [h1, h2, h3]
  refine ⟨by decide, by decide, by decide, ?_⟩
  conv_lhs => rw [typeTextAux]
  rw [hstep]

/-- C7 witness: the concrete scenario conjuncts, plus a tab character inside
`"a\tb"`-like input: it matches nothing, is skipped at its position, and the
remaining characters are still typed. -/
theorem typeText_scenario_and_skips_witness :
    (typeText allOk connState "Hi!".toList defaultTypeOptions).writes =
      [[2, 0, 11, 0, 0, 0, 0, 0], zeroReport,
       [0, 0, 12, 0, 0, 0, 0, 0], zeroReport,
       [2, 0, 30, 0, 0, 0, 0, 0], zeroReport] ∧
    (typeText allOk connState "Hi!".toList defaultTypeOptions).skipped = [] ∧
    (typeText allOk connState "Hi!".toList defaultTypeOptions).errors = [] ∧
    typeTextAux allOk defaultTypeOptions connState ('\t' :: ['a']) 0 =
      ⟨(typeTextAux allOk defaultTypeOptions connState ['a'] (0 + 1)).state,
       (typeTextAux allOk defaultTypeOptions connState ['a'] (0 + 1)).writes,
       (0, '\t') :: (typeTextAux allOk defaultTypeOptions connState ['a'] (0 + 1)).skipped,
       (typeTextAux allOk defaultTypeOptions connState ['a'] (0 + 1)).errors⟩ :=
  typeText_scenario_and_skips allOk defaultTypeOptions connState '\t' ['a'] 0
    (by decide) (by decide) (by decide)

/-- C8: if a prefix of the action list executes cleanly and the next action
fails, `executeSequence` of the whole list stops at that action: the failing
action's index and error are surfaced, its state and writes are final, and
no action of the suffix after it is executed (the suffix does not influence
the result). -/
theorem executeSequence_aborts_at_failure (w : World) (st st1 : EngineState)
    (pre post : List SeqAction) (a : SeqAction) (tr : List (List Nat)) (e : HIDError)
    (h1 : executeSequence w st pre = ⟨st1, tr, none⟩)
    (h2 : (execAction w st1 a).err? = some e) :
    executeSequence w st (pre ++ a :: post) =
      ⟨(execAction w st1 a).state, tr ++ (execAction w st1 a).writes,
        some (pre.length, e)⟩ := by
  have h := executeSequenceAux_append_fail w post a e pre st st1 tr 0 h1 h2
  simpa [executeSequence] using h

/-- C8 witness: `[press a, press pineapple, release-all]` aborts at index 1
with `UnknownKey`, and the trailing release action is never executed. -/
theorem executeSequence_aborts_at_failure_witness :
    executeSequence allOk connState
        [SeqAction.keyAct "a" noOptions, SeqAction.keyAct "pineapple" noOptions,
         SeqAction.releaseAct] =
      ⟨(execAction allOk connState (SeqAction.keyAct "pineapple" noOptions)).state,
        [[0, 0, 4, 0, 0, 0, 0, 0], zeroReport]
          ++ (execAction allOk connState (SeqAction.keyAct "pineapple" noOptions)).writes,
        some (1, HIDError.UnknownKey "pineapple")⟩ :=
  executeSequence_aborts_at_failure allOk connState connState
    [SeqAction.keyAct "a" noOptions] [SeqAction.releaseAct]
    (SeqAction.keyAct "pineapple" noOptions)
    [[0, 0, 4, 0, 0, 0, 0, 0], zeroReport] (HIDError.UnknownKey "pineapple")
    (by decide) (by decide)

/-- C9: `releaseKey` of a name that resolves neither as a modifier nor as a
key returns normally — no error (unlike `holdKey`), no device write, and the
engine state exactly unchanged. -/
theorem releaseKey_unknown_noop (w : World) (st : EngineState) (key : String)
    (h1 : MODIFIERS (jsTrim (jsToLower key)) = none)
    (h2 : resolveKeyCode key = none) :
    releaseKey w st key = ⟨st, [], none⟩ := by
  unfold releaseKey
  simp only [h1, h2]

/-- C9 witness: releasing the unknown name `pineapple` is a silent no-op. -/
theorem releaseKey_unknown_noop_witness :
    releaseKey allOk connState "pineapple" = ⟨connState, [], none⟩ :=
  releaseKey_unknown_noop allOk connState "pineapple" (by decide) (by decide)

/-- C10: when `connect` fails (device node absent, or opening fails), a
previously disconnected engine is left exactly as it was — not connected,
null handle — with an error surfaced and nothing written; every subsequent
`sendReport` on that state fails with `NotConnected` and writes nothing; and
a later `connect` in a world where the device is present and opens succeeds
and marks the engine connected. -/
theorem connect_failure_leaves_disconnected (w w2 w3 : World) (st : EngineState)
    (m : Nat) (ks : List Nat)
    (h1 : st.isConnected = false) (h2 : st.deviceHandle = false)
    (h3 : w.deviceAvailable = false ∨ w.openOk = false)
    (h4 : w2.deviceAvailable = true) (h5 : w2.openOk = true) :
    (connect w st).state = st ∧
    (connect w st).err?.isSome = true ∧
    (connect w st).writes = [] ∧
    sendReport w3 (connect w st).state m ks
      = ⟨(connect w st).state, [], some HIDError.NotConnected⟩ ∧
    (connect w2 (connect w st).state).err? = none ∧
    (connect w2 (connect w st).state).state.isConnected = true := by
  obtain ⟨cfg, dh, ic, cr, hmods, hkeys⟩ := st
  dsimp only at h1 h2
  subst h1
  subst h2
  have hconn : connect w ⟨cfg, false, false, cr, hmods, hkeys⟩ =
      ⟨⟨cfg, false, false, cr, hmods, hkeys⟩, [],
        some (if !w.deviceAvailable then HIDError.DeviceUnavailable else HIDError.OpenFailed)⟩ := by
    rcases h3 with hna | hno
    · simp [connect, hna]
    · rcases hda : w.deviceAvailable with _ | _
      · simp [connect, hda]
      · simp [connect, hda, hno]
  rw [hconn]
  refine ⟨rfl, rfl, rfl, rfl, ?_, ?_⟩
  · simp [connect, h4, h5]
  · simp [connect, h4, h5]

/-- C10 witness: a fresh disconnected engine, a world without the device
node, then a healthy world. -/
theorem connect_failure_leaves_disconnected_witness :
    (connect ⟨false, true, true, true⟩ disconnectedState).state = disconnectedState ∧
    (connect ⟨false, true, true, true⟩ disconnectedState).err?.isSome = true ∧
    (connect ⟨false, true, true, true⟩ disconnectedState).writes = [] ∧
    sendReport allOk (connect ⟨false, true, true, true⟩ disconnectedState).state 2 [4]
      = ⟨(connect ⟨false, true, true, true⟩ disconnectedState).state, [],
          some HIDError.NotConnected⟩ ∧
    (connect allOk (connect ⟨false, true, true, true⟩ disconnectedState).state).err? = none ∧
    (connect allOk (connect ⟨false, true, true, true⟩ disconnectedState).state).state.isConnected
      = true :=
  connect_failure_leaves_disconnected ⟨false, true, true, true⟩ allOk allOk
    disconnectedState 2 [4] rfl rfl (Or.inl rfl) rfl rfl
